import Mathlib

/-!
Shallow embedding of the m2k event-translation pipeline: the note-to-key
mapping table (`src/mappings.rs`), the per-message dispatch logic and the
shutdown coordination (`src/main.rs`), together with proofs of the
specified properties.

Machine integers are modelled as `Nat` (all values involved are small and
no arithmetic overflows occur in the source: the only cast is the widening
`u8 as u16`). Fallible operations return `Except`. External collaborators
(the TOML parser, the `SendInput` syscall outcome, signal delivery and
thread wakeups) are parameters of the embedded functions.
-/

namespace M2K

/-- `windows::core::Error`, abstracted to its error code. -/
structure WinError where
  code : Nat
deriving DecidableEq, Repr

/-- `windows::core::Error::from_win32()` reads the calling thread's last
OS error; the concrete code is ambient OS state, fixed here as one value. -/
def WinError.fromWin32 : WinError := ⟨0⟩

/-- `VIRTUAL_KEY` is a `u16` newtype; key codes are naturals below `2 ^ 16`. -/
abbrev VIRTUAL_KEY := Nat

/-- `pub struct Mappings(Vec<Option<VIRTUAL_KEY>>);` from `src/mappings.rs`. -/
structure Mappings where
  slots : List (Option VIRTUAL_KEY)
deriving DecidableEq, Repr

namespace Mappings

/-- `const LEN: usize = 128;` -/
def LEN : Nat := 128

/-- `fn empty() -> Self` : a vector of 128 unmapped slots. -/
def empty : Mappings := ⟨List.replicate LEN none⟩

/-- `pub fn hardcoded() -> Self` : the empty table with the six documented
assignments written into slots 48, 60, 62, 64, 65 and 67. -/
def hardcoded : Mappings :=
  ⟨(((((empty.slots.set 48 (some 0x20)).set 60 (some 0x43)).set 62
      (some 0x44)).set 64 (some 0x45)).set 65 (some 0x46)).set 67 (some 0x47)⟩

/-- `pub fn get(&self, note: u8) -> Option<VIRTUAL_KEY>` :
`self.0.get(note as usize).copied().flatten()`. -/
def get (m : Mappings) (note : Nat) : Option VIRTUAL_KEY :=
  (m.slots[note]?).join

end Mappings

/-- `struct FileMapping { note: u8, key: u8 }`: one deserialized entry of
the configuration document. Both fields are `u8` values. -/
structure FileMapping where
  note : Nat
  key : Nat
deriving DecidableEq, Repr

/-- `struct FileMappings { mapping: Vec<FileMapping> }`. -/
structure FileMappings where
  mapping : List FileMapping
deriving DecidableEq, Repr

/-- `toml::de::Error`, abstracted to the two things the repository reads
from it: an optional byte-range span and the inline message. -/
structure TomlError where
  span : Option (Nat × Nat)
  message : String
deriving DecidableEq, Repr

/-- `pub struct MappingsError { inner: toml::de::Error, source: String }`. -/
structure MappingsError where
  inner : TomlError
  source : String
deriving DecidableEq, Repr

/-- `miette::LabeledSpan`: a byte range with a label. -/
structure LabeledSpan where
  span : Nat × Nat
  label : String
deriving DecidableEq, Repr

/-- The `Diagnostic::source_code` implementation of `MappingsError`:
always the stored original source text. -/
def MappingsError.source_code (e : MappingsError) : Option String :=
  some e.source

/-- The `Diagnostic::labels` implementation of `MappingsError`: one label
at the parser's span carrying the parser's message, exactly when the
parser supplies a span. -/
def MappingsError.labels (e : MappingsError) : Option (List LabeledSpan) :=
  match e.inner.span with
  | some span => some [⟨span, e.inner.message⟩]
  | none => none

/-- `pub enum Error` from `src/main.rs`. -/
inductive Error where
  | Config (e : MappingsError)
  | NoMidiDevices
  | Windows (e : WinError)
  | IoError (code : Nat)
  | Cancellation (code : Nat)
deriving DecidableEq, Repr

namespace Mappings

/-- One iteration of the `for mapping in file_mappings.mapping` loop in
`Mappings::from_file`: `self.0.get_mut(mapping.note as usize)` succeeds
exactly when the index is in bounds and the slot is then overwritten with
`VIRTUAL_KEY(mapping.key as u16)`; `List.set` is the identity out of
bounds, matching the `None` branch of `get_mut`. -/
def applyEntry (slots : List (Option VIRTUAL_KEY)) (mapping : FileMapping) :
    List (Option VIRTUAL_KEY) :=
  slots.set mapping.note (some mapping.key)

/-- `pub fn from_file(path) -> Result<Self, Error>` from `src/mappings.rs`,
modelled from the point where the file contents are in memory:
`fs::read_to_string` is represented by passing `file_contents` directly
and the external `toml::from_str` by the `parse` parameter. On parse
failure the error together with the full source text becomes a
`Error::Config`; on success the entries are folded over the empty table. -/
def from_file (parse : String → Except TomlError FileMappings)
    (file_contents : String) : Except Error Mappings :=
  match parse file_contents with
  | .error error => .error (Error.Config ⟨error, file_contents⟩)
  | .ok file_mappings => .ok ⟨file_mappings.mapping.foldl applyEntry empty.slots⟩

end Mappings

/-- A TOML scalar as relevant to deserializing the `u8` fields of
`FileMapping`: an integer, or anything that is not an integer. -/
inductive TomlValue where
  | int (i : Int)
  | nonInt
deriving DecidableEq, Repr

/-- Modelled from the spec: the serde deserialization of one TOML scalar
into a `u8` field of `FileMapping`. The field types `note: u8, key: u8`
are declared in `src/mappings.rs`; the deserializer itself is library
code outside the repository. An integer in the range 0 to 255 is
accepted; out-of-range integers and non-integer values are rejected with
a parse error, never truncated. -/
def deserializeU8 (v : TomlValue) : Except TomlError Nat :=
  match v with
  | .int i =>
      if 0 ≤ i ∧ i ≤ 255 then .ok i.toNat
      else .error ⟨none, "invalid value, expected u8"⟩
  | .nonInt => .error ⟨none, "invalid type, expected u8"⟩

/-- Modelled from the spec: deserializing one raw document entry into a
`FileMapping`, field by field. -/
def FileMapping.deserialize (note key : TomlValue) : Except TomlError FileMapping := do
  let n ← deserializeU8 note
  let k ← deserializeU8 key
  pure ⟨n, k⟩

/-- Modelled from the spec: the value-level part of `toml::from_str` on an
already-tokenized document, a sequence of raw note/key entry pairs. -/
def parseEntries (raw : List (TomlValue × TomlValue)) : Except TomlError FileMappings := do
  let l ← raw.mapM fun e => FileMapping.deserialize e.1 e.2
  pure ⟨l⟩

/-- The variants of `MidiMessageType` as matched in `handle_midi_message`:
`NoteOn`, `NoteOff`, and the catch-all for every other message kind. -/
inductive MidiMessageType where
  | NoteOn
  | NoteOff
  | other (code : Nat)
deriving DecidableEq, Repr

/-- `IMidiMessage` as used by `handle_midi_message`: the fallible `Type()`
accessor, and the fallible `Note()` accessor of the downcast note message
(a failed `cast` is folded into a failing `Note()`). -/
structure IMidiMessage where
  ty : Except WinError MidiMessageType
  note : Except WinError Nat

/-- `KEYBDINPUT` as filled in by `handle_midi_message`: `wScan` and `time`
are the constant 0 in the source and `dwExtraInfo` is ambient OS state,
omitted here. -/
structure KEYBDINPUT where
  wVk : Nat
  wScan : Nat
  dwFlags : Nat
  time : Nat
deriving DecidableEq, Repr

/-- `KEYEVENTF_KEYUP = 0x0002`. -/
def KEYEVENTF_KEYUP : Nat := 2

/-- The outcome of one `handle_midi_message` call: its return value, the
synthetic inputs passed to `SendInput`, and the notes printed by the
debug trace. -/
structure DispatchResult where
  result : Except WinError Unit
  actions : List KEYBDINPUT
  trace : List Nat

/-- The tail of `handle_midi_message` after the `(note, ty)` pair is
built: mapping lookup, `INPUT` construction and the `SendInput` call.
`sent` is the count `SendInput` returns for this call (ambient OS
behaviour); the call succeeded exactly when `sent = 1`. -/
def sendKeyInput (mappings : Mappings) (note : Nat) (flags : Nat)
    (trace : List Nat) (sent : Nat) : DispatchResult :=
  match mappings.get note with
  | none => ⟨.ok (), [], trace⟩
  | some key =>
      let input : KEYBDINPUT := ⟨key, 0, flags, 0⟩
      if sent = 1 then ⟨.ok (), [input], trace⟩
      else ⟨.error WinError.fromWin32, [input], trace⟩

/-- `fn handle_midi_message(message, mappings, debug)` from `src/main.rs`.
Note-on messages use flags 0 (key down) and print the note when `debug`
is set; note-off messages use `KEYEVENTF_KEYUP`; every other message
kind returns `Ok(())` immediately. -/
def handle_midi_message (message : IMidiMessage) (mappings : Mappings)
    (debug : Bool) (sent : Nat) : DispatchResult :=
  match message.ty with
  | .error e => ⟨.error e, [], []⟩
  | .ok .NoteOn =>
      match message.note with
      | .error e => ⟨.error e, [], []⟩
      | .ok note => sendKeyInput mappings note 0 (if debug then [note] else []) sent
  | .ok .NoteOff =>
      match message.note with
      | .error e => ⟨.error e, [], []⟩
      | .ok note => sendKeyInput mappings note KEYEVENTF_KEYUP [] sent
  | .ok (.other _) => ⟨.ok (), [], []⟩

/-- `MidiMessageReceivedEventArgs`: one fallible accessor `Message()`. -/
structure MidiMessageReceivedEventArgs where
  message : Except WinError IMidiMessage

/-- The outcome of one invocation of the registered callback: its return
value, the synthetic inputs requested, and the errors rendered to
standard error by `report_error`. -/
structure CallbackResult where
  result : Except WinError Unit
  actions : List KEYBDINPUT
  stderr : List WinError

/-- The `TypedEventHandler` closure registered in `with_shutdown`: a null
event is acknowledged with `Ok(())`; a failing `Message()` accessor
propagates its error; a failing `handle_midi_message` is reported via
`report_error` and the closure still returns `Ok(())`. -/
def message_received (event : Option MidiMessageReceivedEventArgs)
    (mappings : Mappings) (debug : Bool) (sent : Nat) : CallbackResult :=
  match event with
  | none => ⟨.ok (), [], []⟩
  | some ev =>
      match ev.message with
      | .error e => ⟨.error e, [], []⟩
      | .ok message =>
          let r := handle_midi_message message mappings debug sent
          match r.result with
          | .error error => ⟨.ok (), r.actions, [error]⟩
          | .ok _ => ⟨.ok (), r.actions, []⟩

/-- The process-wide lifecycle state shared by the ctrl-c handler context
and the main context in `with_shutdown`: the `should_exit` atomic flag,
whether the main context has returned from its parking loop, and the
status passed to `process::exit` if it was called. -/
structure ShutdownState where
  should_exit : Bool
  mainReturned : Bool
  exited : Option Nat
deriving DecidableEq, Repr

/-- `AtomicBool::new(false)` and the main context still blocked. -/
def ShutdownState.init : ShutdownState := ⟨false, false, none⟩

/-- The ctrl-c handler: `if should_exit.swap(true, AcqRel)` then
`process::exit(1)`, else `main_thread.unpark()`. The swap-and-check is a
single atomic step; after `process::exit` nothing further runs, modelled
by freezing the state. -/
def interruptHandler (s : ShutdownState) : ShutdownState :=
  if s.exited.isSome then s
  else if s.should_exit then ⟨true, s.mainReturned, some 1⟩
  else ⟨true, s.mainReturned, none⟩

/-- One wakeup of the main context inside
`while !should_exit.load(Acquire) do thread::park()`: the flag is
re-tested; if set the loop exits and `run` returns, otherwise the context
parks again (a spurious wake changes nothing). -/
def mainWake (s : ShutdownState) : ShutdownState :=
  if s.exited.isSome then s
  else if s.mainReturned then s
  else if s.should_exit then ⟨s.should_exit, true, s.exited⟩
  else s

/-- The events of the shutdown protocol: delivery of one interrupt signal,
and one (possibly spurious) wakeup of the main context. -/
inductive SysEvent where
  | interrupt
  | wake
deriving DecidableEq, Repr

/-- Interleaving semantics of the shutdown coordination: each event runs
one handler to completion. -/
def shutdownStep (s : ShutdownState) (e : SysEvent) : ShutdownState :=
  match e with
  | .interrupt => interruptHandler s
  | .wake => mainWake s

/-- A whole execution: a sequence of events applied in order. -/
def shutdownRun (s : ShutdownState) (events : List SysEvent) : ShutdownState :=
  events.foldl shutdownStep s

/-! ### Helper lemmas -/

theorem sendKeyInput_unmapped (mappings : Mappings) (note : Nat) (flags : Nat)
    (trace : List Nat) (sent : Nat) (h : mappings.get note = none) :
    sendKeyInput mappings note flags trace sent = ⟨.ok (), [], trace⟩ := by
  simp [sendKeyInput, h]

theorem sendKeyInput_actions (mappings : Mappings) (note : Nat) (flags : Nat)
    (trace : List Nat) (sent : Nat) (k : VIRTUAL_KEY) (h : mappings.get note = some k) :
    (sendKeyInput mappings note flags trace sent).actions = [⟨k, 0, flags, 0⟩] := by
  unfold sendKeyInput
  rw [h]
  by_cases hs : sent = 1 <;> simp [hs]

theorem foldl_applyEntry_length (l : List FileMapping)
    (init : List (Option VIRTUAL_KEY)) :
    (l.foldl Mappings.applyEntry init).length = init.length := by
  induction l generalizing init with
  | nil => rfl
  | cons e l ih => simp [List.foldl_cons, ih, Mappings.applyEntry, List.length_set]

theorem foldl_applyEntry_getElem_not_mem (l : List FileMapping)
    (init : List (Option VIRTUAL_KEY)) (n : Nat) (h : ∀ e ∈ l, e.note ≠ n) :
    (l.foldl Mappings.applyEntry init)[n]? = init[n]? := by
  induction l generalizing init with
  | nil => rfl
  | cons e l ih =>
      rw [List.foldl_cons, ih _ (fun x hx => h x (List.mem_cons_of_mem e hx))]
      exact List.getElem?_set_ne (h e (List.mem_cons_self e l))

theorem empty_get (n : Nat) : Mappings.empty.get n = none := by
  unfold Mappings.get Mappings.empty Mappings.LEN
  by_cases h : n < 128
  · rw [List.getElem?_replicate]
    simp [h, Option.join]
  · rw [List.getElem?_eq_none (by simpa using not_lt.mp h)]
    rfl

theorem foldl_applyEntry_get (l : List FileMapping) (n : Nat) (hn : n < 128) :
    (Mappings.mk (l.foldl Mappings.applyEntry Mappings.empty.slots)).get n =
      ((l.filter fun e => e.note == n).getLast?).map (fun e => e.key) := by
  induction l using List.reverseRecOn with
  | nil =>
      simpa using empty_get n
  | append_singleton l e ih =>
      rw [List.foldl_append, List.foldl_cons, List.foldl_nil, List.filter_append]
      by_cases he : e.note = n
      · have hlen : n < (l.foldl Mappings.applyEntry Mappings.empty.slots).length := by
          rw [foldl_applyEntry_length]
          simpa [Mappings.empty, Mappings.LEN] using hn
        have hbeq : (e.note == n) = true := beq_iff_eq.mpr he
        simp only [Mappings.get]
        rw [Mappings.applyEntry, he, List.getElem?_set_eq_of_lt _ hlen]
        simp [List.filter_cons, hbeq, List.getLast?_concat]
      · have hbeq : (e.note == n) = false := beq_eq_false_iff_ne.mpr he
        simp only [Mappings.get] at ih ⊢
        rw [Mappings.applyEntry, List.getElem?_set_ne he, ih]
        simp [List.filter_cons, hbeq]

theorem mapM_deserialize_error {α β : Type} (f : α → Except TomlError β)
    (l : List α) (a : α) (ha : a ∈ l) (e : TomlError) (hf : f a = .error e) :
    ∃ err, l.mapM f = .error err := by
  induction l with
  | nil => cases ha
  | cons x xs ih =>
      rw [List.mapM_cons]
      rcases List.mem_cons.mp ha with rfl | hmem
      · rw [hf]; exact ⟨e, rfl⟩
      · cases hx : f x with
        | error e2 => exact ⟨e2, rfl⟩
        | ok b =>
            obtain ⟨err, herr⟩ := ih hmem
            rw [herr]
            exact ⟨err, rfl⟩

/-! ### Claim theorems -/

/-- C1: For every invocation of the event dispatcher on a message whose
accessors succeed: any message kind other than note-on and note-off
returns success and requests no key injection; a note-on or note-off
whose note is unmapped returns success and requests no key injection;
and when the table maps the note to key code `k`, a note-on requests
exactly one key-down input (`wVk = k`, flags 0) and a note-off requests
exactly one key-up input (`wVk = k`, flags `KEYEVENTF_KEYUP`). -/
theorem handle_midi_message_dispatch (message : IMidiMessage)
    (mappings : Mappings) (debug : Bool) (sent : Nat) :
    (∀ c, message.ty = .ok (.other c) →
      handle_midi_message message mappings debug sent = ⟨.ok (), [], []⟩) ∧
    (∀ n, (message.ty = .ok .NoteOn ∨ message.ty = .ok .NoteOff) →
      message.note = .ok n → mappings.get n = none →
      (handle_midi_message message mappings debug sent).result = .ok () ∧
      (handle_midi_message message mappings debug sent).actions = []) ∧
    (∀ n k, message.note = .ok n → mappings.get n = some k →
      (message.ty = .ok .NoteOn →
        (handle_midi_message message mappings debug sent).actions = [⟨k, 0, 0, 0⟩]) ∧
      (message.ty = .ok .NoteOff →
        (handle_midi_message message mappings debug sent).actions =
          [⟨k, 0, KEYEVENTF_KEYUP, 0⟩])) := by
  refine ⟨?_, ?_, ?_⟩
  · intro c hty
    simp [handle_midi_message, hty]
  · intro n hty hnote hget
    rcases hty with hty | hty <;>
      simp [handle_midi_message, hty, hnote, sendKeyInput_unmapped _ _ _ _ _ hget]
  · intro n k hnote hget
    constructor <;> intro hty <;>
      simp [handle_midi_message, hty, hnote, sendKeyInput_actions _ _ _ _ _ _ hget]

set_option maxRecDepth 40000 in
/-- Witness for C1 at concrete inputs: a note-on for note 60 under the
hardcoded table requests exactly the key-down input for key code 0x43. -/
theorem handle_midi_message_dispatch_witness :
    (handle_midi_message ⟨.ok .NoteOn, .ok 60⟩ Mappings.hardcoded false 1).actions =
      [⟨0x43, 0, 0, 0⟩] :=
  ((handle_midi_message_dispatch ⟨.ok .NoteOn, .ok 60⟩ Mappings.hardcoded false 1).2.2
    60 0x43 rfl (by decide)).1 rfl

set_option maxRecDepth 40000 in
/-- C4: the hardcoded default table maps note 48 to space (0x20), 60 to C
(0x43), 62 to D (0x44), 64 to E (0x45), 65 to F (0x46), 67 to G (0x47),
and every other note below 128 to nothing. -/
theorem hardcoded_lookup :
    Mappings.hardcoded.get 48 = some 0x20 ∧
    Mappings.hardcoded.get 60 = some 0x43 ∧
    Mappings.hardcoded.get 62 = some 0x44 ∧
    Mappings.hardcoded.get 64 = some 0x45 ∧
    Mappings.hardcoded.get 65 = some 0x46 ∧
    Mappings.hardcoded.get 67 = some 0x47 ∧
    ∀ n, n < 128 →
      Mappings.hardcoded.get n =
        (if n = 48 then some 0x20 else if n = 60 then some 0x43
         else if n = 62 then some 0x44 else if n = 64 then some 0x45
         else if n = 65 then some 0x46 else if n = 67 then some 0x47
         else none) := by
  refine ⟨rfl, rfl, rfl, rfl, rfl, rfl, ?_⟩
  decide

set_option maxRecDepth 40000 in
/-- Witness for C4: note 50 is below 128, distinct from the six mapped
notes, and unmapped in the hardcoded table. -/
theorem hardcoded_lookup_witness : Mappings.hardcoded.get 50 = none := by
  have h := hardcoded_lookup.2.2.2.2.2.2 50 (by decide)
  simpa using h

/-- C5: on any table whose slot vector has the invariant length 128,
lookup of any note outside the range 0 to 127 returns `none'; the read is
total (no panic) because it goes through the checked `Vec::get`. -/
theorem get_out_of_range (m : Mappings) (h : m.slots.length = 128)
    (note : Nat) (hn : 128 ≤ note) : m.get note = none := by
  unfold Mappings.get
  rw [List.getElem?_eq_none (by omega)]
  rfl

set_option maxRecDepth 40000 in
/-- Witness for C5: the hardcoded table has length 128 and note 200
resolves to nothing. -/
theorem get_out_of_range_witness : Mappings.hardcoded.get 200 = none :=
  get_out_of_range Mappings.hardcoded (by decide) 200 (by decide)

set_option maxRecDepth 40000 in
/-- C2: on a successfully parsed configuration document, `from_file`
succeeds with a table where a slot named by no entry is unmapped, the
last entry in document order for a note below 128 determines that slot,
and an entry whose note index is outside the range 0 to 127 leaves the
slot vector unchanged; in particular the two-entry document mapping note
60 to key 65 and then to key 66 resolves note 60 to key 66, and a
document whose only entry names note 200 affects no slot. -/
theorem from_file_success (parse : String → Except TomlError FileMappings)
    (contents : String) (fm : FileMappings)
    (hparse : parse contents = .ok fm) :
    ∃ m, Mappings.from_file parse contents = .ok m ∧
      (∀ n, (∀ e ∈ fm.mapping, e.note ≠ n) → m.get n = none) ∧
      (∀ n, n < 128 →
        m.get n =
          ((fm.mapping.filter fun e => e.note == n).getLast?).map
            (fun e => e.key)) ∧
      (∀ slots e, slots.length = 128 → 128 ≤ e.note →
        Mappings.applyEntry slots e = slots) ∧
      (∀ p c, p c = .ok ⟨[⟨60, 65⟩, ⟨60, 66⟩]⟩ →
        ∃ m2, Mappings.from_file p c = .ok m2 ∧ m2.get 60 = some 66) ∧
      (∀ p c, p c = .ok ⟨[⟨200, 10⟩]⟩ →
        Mappings.from_file p c = .ok Mappings.empty) := by
  refine ⟨⟨fm.mapping.foldl Mappings.applyEntry Mappings.empty.slots⟩,
    by simp [Mappings.from_file, hparse], ?_, ?_, ?_, ?_, ?_⟩
  · intro n hn
    have h1 := foldl_applyEntry_getElem_not_mem fm.mapping Mappings.empty.slots n hn
    have h2 := empty_get n
    simp only [Mappings.get] at h2 ⊢
    rw [h1]
    exact h2
  · exact foldl_applyEntry_get fm.mapping
  · intro slots e hl hn
    exact List.set_eq_of_length_le (by omega)
  · intro p c hp
    exact ⟨⟨([⟨60, 65⟩, ⟨60, 66⟩] : List FileMapping).foldl Mappings.applyEntry
      Mappings.empty.slots⟩, by simp [Mappings.from_file, hp], by decide⟩
  · intro p c hp
    simp only [Mappings.from_file, hp, List.foldl_cons, List.foldl_nil]
    rw [show Mappings.applyEntry Mappings.empty.slots ⟨200, 10⟩ =
      Mappings.empty.slots from List.set_eq_of_length_le (by decide)]

set_option maxRecDepth 40000 in
/-- Witness for C2: the last-wins document yields a table resolving note
60 to key code 66. -/
theorem from_file_success_witness :
    ∃ m2, Mappings.from_file (fun _ => .ok ⟨[⟨60, 65⟩, ⟨60, 66⟩]⟩) "doc" = .ok m2 ∧
      m2.get 60 = some 66 := by
  obtain ⟨m, -, -, -, -, h, -⟩ :=
    from_file_success (fun _ => .ok ⟨[⟨60, 65⟩, ⟨60, 66⟩]⟩) "doc"
      ⟨[⟨60, 65⟩, ⟨60, 66⟩]⟩ rfl
  exact h (fun _ => .ok ⟨[⟨60, 65⟩, ⟨60, 66⟩]⟩) "doc" rfl

/-- C6: when the parser fails, `from_file` fails with `Error::Config`
carrying the parser error and the complete original source text; the
diagnostic exposes that text as its source code, and exposes one label at
the parser's span with the parser's inline message exactly when the
parser supplies a span. No table is constructed on this path. -/
theorem from_file_parse_error (parse : String → Except TomlError FileMappings)
    (contents : String) (err : TomlError)
    (hparse : parse contents = .error err) :
    Mappings.from_file parse contents = .error (Error.Config ⟨err, contents⟩) ∧
    (MappingsError.mk err contents).source = contents ∧
    (MappingsError.mk err contents).source_code = some contents ∧
    (∀ sp, err.span = some sp →
      (MappingsError.mk err contents).labels = some [⟨sp, err.message⟩]) ∧
    (err.span = none → (MappingsError.mk err contents).labels = none) := by
  refine ⟨by simp [Mappings.from_file, hparse], rfl, rfl, ?_, ?_⟩
  · intro sp hsp
    simp [MappingsError.labels, hsp]
  · intro hsp
    simp [MappingsError.labels, hsp]

/-- Witness for C6: a parse error with a span yields a configuration
error holding the full source text and one labeled span. -/
theorem from_file_parse_error_witness :
    Mappings.from_file (fun _ => .error ⟨some (3, 5), "unexpected token"⟩)
      "bad doc" =
      .error (Error.Config ⟨⟨some (3, 5), "unexpected token"⟩, "bad doc"⟩) ∧
    (MappingsError.mk ⟨some (3, 5), "unexpected token"⟩ "bad doc").labels =
      some [⟨(3, 5), "unexpected token"⟩] := by
  obtain ⟨h1, -, -, h4, -⟩ :=
    from_file_parse_error (fun _ => .error ⟨some (3, 5), "unexpected token"⟩)
      "bad doc" ⟨some (3, 5), "unexpected token"⟩ rfl
  exact ⟨h1, h4 (3, 5) rfl⟩

/-- C7: when `handle_midi_message` fails for a delivered message, the
registered callback reports the failure to standard error and still
returns success, so the subscription is not torn down; the callback
threads no state between invocations, so later messages are processed
unchanged. -/
theorem message_received_recovers (event : MidiMessageReceivedEventArgs)
    (mappings : Mappings) (debug : Bool) (sent : Nat) (msg : IMidiMessage)
    (e : WinError) (hmsg : event.message = .ok msg)
    (hfail : (handle_midi_message msg mappings debug sent).result = .error e) :
    (message_received (some event) mappings debug sent).result = .ok () ∧
    (message_received (some event) mappings debug sent).stderr = [e] := by
  constructor <;> simp [message_received, hmsg, hfail]

/-- Witness for C7: a note-on for a mapped note whose `SendInput` call
reports 0 injected events makes the dispatch fail, and the callback
reports the error and returns success. -/
theorem message_received_recovers_witness :
    (message_received (some ⟨.ok ⟨.ok .NoteOn, .ok 0⟩⟩) ⟨[some 7]⟩
      false 0).result = .ok () ∧
    (message_received (some ⟨.ok ⟨.ok .NoteOn, .ok 0⟩⟩) ⟨[some 7]⟩
      false 0).stderr = [WinError.fromWin32] :=
  message_received_recovers ⟨.ok ⟨.ok .NoteOn, .ok 0⟩⟩ ⟨[some 7]⟩
    false 0 ⟨.ok .NoteOn, .ok 0⟩ WinError.fromWin32 rfl rfl

/-- C8: every construction path yields a slot vector of length exactly
128: the empty table, the hardcoded table, and any table returned by
`from_file`. Lookup is a pure read and no mutating operation exists, so
the invariant holds for the table's whole lifetime. -/
theorem table_length_invariant :
    Mappings.empty.slots.length = 128 ∧
    Mappings.hardcoded.slots.length = 128 ∧
    (∀ parse contents m, Mappings.from_file parse contents = .ok m →
      m.slots.length = 128) := by
  refine ⟨by simp [Mappings.empty, Mappings.LEN],
    by simp [Mappings.hardcoded, Mappings.empty, Mappings.LEN, List.length_set], ?_⟩
  intro parse contents m hm
  unfold Mappings.from_file at hm
  cases hp : parse contents with
  | error e =>
      rw [hp] at hm
      cases hm
  | ok fm =>
      rw [hp] at hm
      obtain rfl := Except.ok.inj hm
      have h := foldl_applyEntry_length fm.mapping Mappings.empty.slots
      simpa [Mappings.empty, Mappings.LEN] using h

/-- Witness for C8: a parser returning the empty document yields the
empty table, whose slot vector has length 128. -/
theorem table_length_invariant_witness :
    Mappings.empty.slots.length = 128 :=
  table_length_invariant.2.2 (fun _ => .ok ⟨[]⟩) "" Mappings.empty rfl

theorem deserializeU8_error_int (i : Int) (h : i < 0 ∨ 255 < i) :
    deserializeU8 (.int i) = .error ⟨none, "invalid value, expected u8"⟩ := by
  have hcond : ¬(0 ≤ i ∧ i ≤ 255) := by omega
  simp [deserializeU8, hcond]

theorem deserialize_error_of_bad (a b : TomlValue)
    (h : (∃ i, (a = .int i ∨ b = .int i) ∧ (i < 0 ∨ 255 < i)) ∨
      a = .nonInt ∨ b = .nonInt) :
    ∃ e, FileMapping.deserialize a b = .error e := by
  have second : ∀ e2, deserializeU8 b = .error e2 →
      ∃ e, FileMapping.deserialize a b = .error e := by
    intro e2 hb
    cases ha2 : deserializeU8 a with
    | error e1 =>
        refine ⟨e1, ?_⟩
        unfold FileMapping.deserialize
        rw [ha2]
        rfl
    | ok n =>
        refine ⟨e2, ?_⟩
        unfold FileMapping.deserialize
        rw [ha2, hb]
        rfl
  rcases h with ⟨i, hor, hrange⟩ | ha | hb
  · rcases hor with ha | hb
    · refine ⟨⟨none, "invalid value, expected u8"⟩, ?_⟩
      unfold FileMapping.deserialize
      rw [ha, deserializeU8_error_int i hrange]
      rfl
    · exact second _ (by rw [hb, deserializeU8_error_int i hrange])
  · refine ⟨⟨none, "invalid type, expected u8"⟩, ?_⟩
    unfold FileMapping.deserialize
    rw [ha]
    rfl
  · exact second ⟨none, "invalid type, expected u8"⟩ (by rw [hb]; rfl)

/-- C9: a document entry whose note or key value is an out-of-range or
non-integer scalar makes deserialization into the `u8` fields of
`FileMapping` fail, so `from_file` fails with `Error::Config`: the value
is neither truncated modulo 256 nor silently dropped. -/
theorem from_file_rejects_out_of_range (raw : List (TomlValue × TomlValue))
    (contents : String) (entry : TomlValue × TomlValue) (hmem : entry ∈ raw)
    (hbad : (∃ i, (entry.1 = .int i ∨ entry.2 = .int i) ∧ (i < 0 ∨ 255 < i)) ∨
      entry.1 = .nonInt ∨ entry.2 = .nonInt) :
    ∃ err, Mappings.from_file (fun _ => parseEntries raw) contents =
      .error (Error.Config ⟨err, contents⟩) := by
  obtain ⟨e, he⟩ := deserialize_error_of_bad entry.1 entry.2 hbad
  obtain ⟨err, herr⟩ := mapM_deserialize_error
    (fun e => FileMapping.deserialize e.1 e.2) raw entry hmem e he
  have hp : parseEntries raw = .error err := by
    unfold parseEntries
    rw [herr]
    rfl
  exact ⟨err, by simp [Mappings.from_file, hp]⟩

/-- Witness for C9: the document whose single entry maps note 300 to key
10 fails to parse, and `from_file` fails with a configuration error. -/
theorem from_file_rejects_out_of_range_witness :
    ∃ err, Mappings.from_file
      (fun _ => parseEntries [(.int 300, .int 10)]) "note 300" =
      .error (Error.Config ⟨err, "note 300"⟩) :=
  from_file_rejects_out_of_range [(.int 300, .int 10)] "note 300"
    (.int 300, .int 10) (List.mem_singleton.mpr rfl)
    (Or.inl ⟨300, Or.inl rfl, by omega⟩)

theorem shutdownStep_flag_mono (s : ShutdownState) (e : SysEvent)
    (h : s.should_exit = true) : (shutdownStep s e).should_exit = true := by
  cases e <;> simp [shutdownStep, interruptHandler, mainWake, h] <;>
    split_ifs <;> simp [h]

theorem shutdownRun_flag_mono (events : List SysEvent) :
    ∀ s : ShutdownState, s.should_exit = true →
      (shutdownRun s events).should_exit = true := by
  induction events with
  | nil => intro s h; exact h
  | cons e es ih =>
      intro s h
      exact ih _ (shutdownStep_flag_mono s e h)

/-- C3: the shutdown flag starts false; an interrupt delivered while the
flag is false and the process alive sets the flag, does not terminate the
process, and the next wakeup of the main context makes it return; an
interrupt delivered while the flag is already true terminates the
process with exit status 1; and no step of the protocol ever resets the
flag to false. -/
theorem shutdown_protocol :
    ShutdownState.init.should_exit = false ∧
    (∀ s : ShutdownState, s.exited = none → s.should_exit = false →
      (shutdownStep s .interrupt).should_exit = true ∧
      (shutdownStep s .interrupt).exited = none ∧
      (shutdownStep (shutdownStep s .interrupt) .wake).mainReturned = true) ∧
    (∀ s : ShutdownState, s.exited = none → s.should_exit = true →
      shutdownStep s .interrupt = ⟨true, s.mainReturned, some 1⟩) ∧
    (∀ (s : ShutdownState) (e : SysEvent), s.should_exit = true →
      (shutdownStep s e).should_exit = true) ∧
    (∀ (s : ShutdownState) (events : List SysEvent), s.should_exit = true →
      (shutdownRun s events).should_exit = true) := by
  refine ⟨rfl, ?_, ?_, shutdownStep_flag_mono, fun s events => shutdownRun_flag_mono events s⟩
  · rintro ⟨f, m, ex⟩ h1 h2
    dsimp at h1 h2
    subst h1
    subst h2
    cases m <;> simp [shutdownStep, interruptHandler, mainWake]
  · rintro ⟨f, m, ex⟩ h1 h2
    dsimp at h1 h2
    subst h1
    subst h2
    simp [shutdownStep, interruptHandler]

/-- Witness for C3: a second interrupt delivered while the flag is
already set terminates the process with status 1. -/
theorem shutdown_protocol_witness :
    shutdownStep ⟨true, false, none⟩ .interrupt = ⟨true, false, some 1⟩ :=
  shutdown_protocol.2.2.1 ⟨true, false, none⟩ rfl rfl

/-- C10: a null event argument makes the registered callback return
success immediately: no message classification, no table lookup, no
injection request, nothing reported. -/
theorem message_received_null_event (mappings : Mappings) (debug : Bool)
    (sent : Nat) :
    message_received none mappings debug sent = ⟨.ok (), [], []⟩ :=
  rfl

end M2K
